import Mathlib

/-! Verification of the LAMBench metrics-aggregation and ranking engine.

The Python sources under `lambench/metrics/post_process.py`,
`lambench/tasks/calculator/inference_efficiency/inference_efficiency.py` and
`lambench/models/ase_models.py` are embedded shallowly below.  The helper
module `lambench/metrics/utils.py` and the package
`lambench/metrics/vishelper/` are not part of the available sources (only
their tests and call sites are); those definitions are modelled from the
specification and from the behaviour pinned by the tests in
`tests/metrics/test_utils_extra.py`, and are marked as such in their doc
comments.  Machine floating point is abstracted by `ℚ`, and the
transcendental functions (`log`, `exp`, `log10`, `sqrt`) are explicit
functional parameters, so every definition stays executable.
-/

namespace LamBench

/-- Arithmetic mean of a list of rationals (division by zero yields `0`,
matching the convention that callers guard against empty lists). -/
def qMean (xs : List ℚ) : ℚ := xs.sum / xs.length

/-! Component ResultFilter:

`TaskResult` is the raw per-task metric mapping for one model: each of the
three force-field metrics may be absent (`none`). -/

structure TaskResult where
  energy_rmse : Option ℚ
  force_rmse : Option ℚ
  virial_rmse : Option ℚ
deriving DecidableEq

/-- Per-task normalization configuration: a `none` weight excludes the
metric, the std supplies the baseline scale. -/
structure NormalizationConfig where
  energy_weight : Option ℚ
  force_weight : Option ℚ
  virial_weight : Option ℚ
  energy_std : ℚ
  force_std : ℚ
  virial_std : ℚ
deriving DecidableEq

/-- Modelled from the spec: the per-metric branch of
`lambench.metrics.utils.filter_generalizability_force_field_results`
(`lambench/metrics/utils.py` is absent from the sources; only its tests and
call sites are available).  Returns the pair
(contribution to the composite, value the caller's field is left with):
a `none` weight excludes the metric and clears the caller's field; a present
weight with an absent raw value contributes `none` and leaves the field
absent; otherwise the contribution is `weight * log raw` in raw mode and
`weight * log (min (raw / std) 1)` in normalised mode.  The normalised-mode
clip at the baseline is forced by the source test
`test_filter_generalizability_force_field_results_normalize`, which requires
the contribution `0` at `raw / std = 2` (the report template documents the
same rule, `min(M_model / M_dummy, 1)`); a linear `weight * (raw / std)`
rule would give `2` there.  `log` is an explicit parameter. -/
def filterMetric (log : ℚ → ℚ) (normalize : Bool) (weight : Option ℚ)
    (std : ℚ) (raw : Option ℚ) : Option ℚ × Option ℚ :=
  match weight with
  | none => (none, none)
  | some w =>
    match raw with
    | none => (none, none)
    | some v =>
      (some (if normalize then w * log (min (v / std) 1) else w * log v), some v)

/-- Modelled from the spec: `filter_generalizability_force_field_results`
from the absent `lambench/metrics/utils.py`.  The Python function mutates
the caller-owned `task_result` dict; the embedding returns the pair
(per-metric contributions, task result as left in the caller). -/
def filter_generalizability_force_field_results (log : ℚ → ℚ)
    (result : TaskResult) (config : NormalizationConfig)
    (normalize : Bool := false) : TaskResult × TaskResult :=
  let e := filterMetric log normalize config.energy_weight config.energy_std result.energy_rmse
  let f := filterMetric log normalize config.force_weight config.force_std result.force_rmse
  let v := filterMetric log normalize config.virial_weight config.virial_std result.virial_rmse
  (⟨e.1, f.1, v.1⟩, ⟨e.2, f.2, v.2⟩)

/-! Component EfficiencyAggregator. -/

/-- One per-system efficiency measurement: `average_time = none` signals the
system could not be measured at all. -/
structure EfficiencyRecord where
  average_time : Option ℚ
  std_time : Option ℚ
  success_rate : ℚ
deriving DecidableEq

/-- Modelled from the spec: `aggregated_inference_efficiency_results` from
the absent `lambench/metrics/utils.py`.  Output is the result dict as an
association list, so that the differing key shape between the two branches
(`standard_deviation` in the complete case, `std_time` in the collapse case)
pinned by `test_aggregated_inference_efficiency_results_incomplete` is kept.
`sqrt` is an explicit parameter. -/
def aggregated_inference_efficiency_results (sqrt : ℚ → ℚ)
    (records : List (String × EfficiencyRecord)) : List (String × Option ℚ) :=
  let recs := records.map Prod.snd
  if recs.any fun r => r.average_time.isNone then
    [("average_time", none), ("std_time", none), ("success_rate", some 0)]
  else
    [("average_time", some (qMean (recs.map fun r => r.average_time.getD 0))),
     ("standard_deviation",
       some (sqrt (qMean (recs.map fun r => (r.std_time.getD 0) ^ 2)))),
     ("success_rate", some (qMean (recs.map fun r => r.success_rate)))]

/-! Component StabilityAggregator. -/

/-- One per-structure MD stability outcome: either a drift magnitude `Φ`
(eV/atom/ps) or a failed / non-finite simulation. -/
inductive StabilityRecord where
  | ok (phi : ℚ)
  | failed
deriving DecidableEq

/-- Instability tolerance `Φ_tol = 5 × 10⁻⁴` eV/atom/ps. -/
def phiTol : ℚ := 5 / 10000

/-- Modelled from the spec: per-record instability contribution,
`max 0 (log10 (Φ / Φ_tol))` for a completed run and the fixed penalty `5`
for a failed run.  `log10` is an explicit parameter. -/
def instability (log10 : ℚ → ℚ) : StabilityRecord → ℚ
  | .ok phi => max 0 (log10 (phi / phiTol))
  | .failed => 5

/-- Modelled from the spec: `aggregated_nve_md_results` from the absent
`lambench/metrics/utils.py` — the arithmetic mean of the per-structure
instability contributions over the named structure set. -/
def aggregated_nve_md_results (log10 : ℚ → ℚ)
    (metrics : List (String × StabilityRecord)) : ℚ :=
  qMean (metrics.map fun p => instability log10 p.2)

/-! Component RankingEngine:

`summarize_final_rankings` lives in the absent
`lambench/metrics/vishelper/metrics_calculations.py`; the ranking rule is
modelled from the spec (§4.5): lexicographic multi-key sort with fixed
priority `(FF-Error asc, PC-Error asc, Instability asc, Efficiency desc)`
and `none` sorting last within each key, via a stable sort. -/

/-- One row of the final ranking table. -/
structure FinalRankingRow where
  model : String
  ff_error : Option ℚ
  pc_error : Option ℚ
  instability_score : Option ℚ
  efficiency : Option ℚ
deriving DecidableEq

/-- Sort key for an ascending column: a present value compares as itself,
a missing value compares as `⊤` so it sorts last. -/
def ascKey : Option ℚ → WithTop ℚ
  | none => ⊤
  | some x => (x : WithTop ℚ)

/-- Sort key for a descending column: a present value compares as its
negation (so larger values sort first), a missing value compares as `⊤`
so it still sorts last. -/
def descKey : Option ℚ → WithTop ℚ
  | none => ⊤
  | some x => ((-x : ℚ) : WithTop ℚ)

/-- Modelled from the spec: the four-key lexicographic sort key of a
ranking row, in strict priority order FF-Error (asc), PC-Error (asc),
Instability (asc), Efficiency (desc). -/
def sortKey (r : FinalRankingRow) :
    (WithTop ℚ) ×ₗ ((WithTop ℚ) ×ₗ ((WithTop ℚ) ×ₗ (WithTop ℚ))) :=
  toLex (ascKey r.ff_error,
    toLex (ascKey r.pc_error,
      toLex (ascKey r.instability_score, descKey r.efficiency)))

/-- The comparator used by the ranking sort. -/
def rowLe (a b : FinalRankingRow) : Prop := sortKey a ≤ sortKey b

instance : DecidableRel rowLe :=
  fun a b => inferInstanceAs (Decidable (sortKey a ≤ sortKey b))

instance : IsTotal FinalRankingRow rowLe :=
  ⟨fun a b => le_total (sortKey a) (sortKey b)⟩

instance : IsTrans FinalRankingRow rowLe :=
  ⟨fun _ _ _ h₁ h₂ => le_trans h₁ h₂⟩

instance : IsRefl FinalRankingRow rowLe := ⟨fun _ => le_refl _⟩

/-- Modelled from the spec: `RankingEngine.rank` — full recomputation of
the order over the complete row set by a stable sort on `rowLe`. -/
def rank (rows : List FinalRankingRow) : List FinalRankingRow :=
  List.insertionSort rowLe rows

/-! Embedding of post_process.py:

Embedding of `lambench/metrics/post_process.py`: per-model fetching and
processing of raw results (`process_results_for_one_model`) and the
aggregation entry point (`main`).  Database tables are inputs (functions
from model name to the queried record list). -/

/-- All present metric contributions of a filtered per-task result, in
field order. -/
def presentScores (r : TaskResult) : List ℚ :=
  [r.energy_rmse, r.force_rmse, r.virial_rmse].filterMap id

/-- Modelled from the spec: `exp_average` from the absent
`lambench/metrics/utils.py` — the exponential average of the log-domain
per-task contributions (§4.2, uniform weights at this call site):
`exp` applied to the arithmetic mean of the present contributions.
`exp` is an explicit parameter. -/
def exp_average (exp : ℚ → ℚ) (scores : List TaskResult) : ℚ :=
  exp (qMean (scores.flatMap presentScores))

/-- Output of the direct-task block of `process_results_for_one_model`:
the stored per-task dicts (after the filter's in-place mutation), the
"Weighted" entry, and the recorded diagnostic naming the missing tasks
(`none` when no warning was logged). -/
structure DirectOut where
  results : List (String × TaskResult)
  weighted : Option ℚ
  missing_warning : Option (List String)
deriving DecidableEq

/-- Direct-task block of `process_results_for_one_model`
(post_process.py lines 50-68): filter every record against the static
weights, then either mark "Weighted" as `none` with a warning naming the
missing tasks (count mismatch against the static config) or set it to the
exponential average of the per-task normalized scores.  `weightsOf` is the
static `DIRECT_TASK_WEIGHTS` mapping and `cfgTasks` its key list; the
missing set is computed, as in the source, after the "Weighted" key has
been added to the results dict. -/
def processDirectTasks (log exp : ℚ → ℚ)
    (weightsOf : String → NormalizationConfig) (cfgTasks : List String)
    (records : List (String × TaskResult)) : DirectOut :=
  let processed := records.map fun p =>
    (p.1, filter_generalizability_force_field_results log p.2 (weightsOf p.1))
  let stored := processed.map fun p => (p.1, p.2.2)
  let norms := processed.map fun p => p.2.1
  if records.length ≠ cfgTasks.length then
    { results := stored
      weighted := none
      missing_warning := some (cfgTasks.filter fun t =>
        ¬(t ∈ records.map Prod.fst ∨ t = "Weighted")) }
  else
    { results := stored
      weighted := some (exp_average exp norms)
      missing_warning := none }

/-- Deduplicated keys in first-seen order (the iteration order of the
`defaultdict` built in the finetune block). -/
def seenKeys (keys : List String) : List String :=
  keys.foldl (fun acc k => if k ∈ acc then acc else acc ++ [k]) []

/-- Finetune-task block of `process_results_for_one_model`
(post_process.py lines 77-94): group property records by
`PROPERTY_TASK_REVERSE_MAP` (`reverse`) and take the per-metric mean over
the folds of each group.  The float rounding `np.round(_, 7)` is outside
the rational embedding and is omitted; an absent metric key defaults to
`0` where the source would raise `KeyError`. -/
def processFinetuneTasks (reverse : String → String)
    (records : List (String × List (String × ℚ))) :
    List (String × List (String × ℚ)) :=
  let keys := seenKeys (records.map fun r => reverse r.1)
  keys.map fun k =>
    let folds := (records.filter fun r => reverse r.1 = k).map Prod.snd
    let metricNames := (folds.headD []).map Prod.fst
    (k, metricNames.map fun m => (m, qMean (folds.map fun f => (f.lookup m).getD 0)))

/-- Calculator-task block of `process_results_for_one_model`
(post_process.py lines 103-109): aggregate each record's per-structure
metrics with `aggregated_nve_md_results`. -/
def processCalculatorTasks (log10 : ℚ → ℚ)
    (records : List (String × List (String × StabilityRecord))) :
    List (String × ℚ) :=
  records.map fun r => (r.1, aggregated_nve_md_results log10 r.2)

/-- A leaderboard model: its name and which task categories it shows. -/
structure LBModel where
  model_name : String
  show_direct_task : Bool
  show_finetune_task : Bool
  show_calculator_task : Bool
deriving DecidableEq

/-- The environment of `post_process.main`: the static configuration and
the three database tables, plus the transcendental functions. -/
structure AggEnv where
  log : ℚ → ℚ
  exp : ℚ → ℚ
  log10 : ℚ → ℚ
  direct_task_weights : String → NormalizationConfig
  direct_task_names : List String
  property_reverse : String → String
  directTable : String → List (String × TaskResult)
  propertyTable : String → List (String × List (String × ℚ))
  calculatorTable : String → List (String × List (String × StabilityRecord))

/-- The per-model results dict; a `none` block stands for the `{}` the
source leaves in place when the category is not shown. -/
structure SingleModelResults where
  direct_task_results : Option DirectOut
  finetune_task_results : Option (List (String × List (String × ℚ)))
  calculator_task_results : Option (List (String × ℚ))
deriving DecidableEq

/-- `process_results_for_one_model` (post_process.py lines 34-111): for
each enabled category, an empty query result makes the whole function
return `none` (after a logged warning); otherwise the three blocks are
processed and returned. -/
def process_results_for_one_model (env : AggEnv) (m : LBModel) :
    Option SingleModelResults :=
  if m.show_direct_task && (env.directTable m.model_name).isEmpty then none
  else if m.show_finetune_task && (env.propertyTable m.model_name).isEmpty then none
  else if m.show_calculator_task && (env.calculatorTable m.model_name).isEmpty then none
  else some
    { direct_task_results :=
        if m.show_direct_task then
          some (processDirectTasks env.log env.exp env.direct_task_weights
            env.direct_task_names (env.directTable m.model_name))
        else none
      finetune_task_results :=
        if m.show_finetune_task then
          some (processFinetuneTasks env.property_reverse
            (env.propertyTable m.model_name))
        else none
      calculator_task_results :=
        if m.show_calculator_task then
          some (processCalculatorTasks env.log10
            (env.calculatorTable m.model_name))
        else none }

/-- `main` (post_process.py lines 114-138): iterate over the leaderboard
models, storing `process_results_for_one_model` for each and then writing
the model metadata into the stored entry.  When the stored entry is `None`
that second write subscripts `None`, which raises `TypeError` and aborts
the run; the embedding returns `Except.error` in that case and the
collected results table otherwise. -/
def mainAgg (env : AggEnv) (models : List LBModel) :
    Except String (List (String × SingleModelResults)) :=
  let leaderboard := models.filter fun m =>
    m.show_direct_task || m.show_finetune_task || m.show_calculator_task
  leaderboard.foldlM (fun acc m =>
    match process_results_for_one_model env m with
    | some r => .ok (acc ++ [(m.model_name, r)])
    | none => .error "TypeError: NoneType object does not support item assignment")
    []

/-! Embedding of inference_efficiency.py:

Embedding of `run_one_inference` (lines 109-163) and
`find_maximum_scaling` (lines 31-73).  The outcome of the underlying
calculator on each frame — whether `get_efv` succeeded and how much wall
time elapsed — is external input and enters as data. -/

/-- One trajectory frame as seen by `run_one_inference`: its atom count,
whether `get_efv` succeeded on it, and the elapsed wall time (seconds) of
the evaluation. -/
structure Frame where
  n_atoms : ℕ
  ok : Bool
  elapsed : ℚ
deriving DecidableEq

/-- Python `int()` on a rational: truncation toward zero. -/
def intTrunc (q : ℚ) : ℤ := if 0 ≤ q then ⌊q⌋ else ⌈q⌉

/-- The per-atom microsecond timings collected by the loop of
`run_one_inference`: frames that succeeded and whose index is at least the
warmup cutoff contribute `elapsed / n_atoms * 1e6`. -/
def efficiencySamples (frames : List Frame) (start : ℤ) : List ℚ :=
  frames.enum.filterMap fun p =>
    if p.2.ok ∧ start ≤ (p.1 : ℤ) then
      some (p.2.elapsed / (p.2.n_atoms : ℚ) * 1000000)
    else none

/-- `run_one_inference` (direct-loop mode, inference_efficiency.py lines
109-163): the warmup cutoff is `int(len * warmup_ratio)`; the mean and
population standard deviation are taken over the post-warmup successful
frames (`none` when there are none), and the success rate counts every
frame, warmup included.  `sqrt` (for `np.std`) is an explicit parameter. -/
def run_one_inference (sqrt : ℚ → ℚ) (frames : List Frame) (warmup : ℚ) :
    EfficiencyRecord :=
  let n := frames.length
  let start := intTrunc ((n : ℚ) * warmup)
  let eff := efficiencySamples frames start
  let succ := frames.countP fun f => f.ok
  { average_time := if eff.length = 0 then none else some (qMean eff)
    std_time :=
      if eff.length = 0 then none
      else some (sqrt (qMean (eff.map fun x => (x - qMean eff) ^ 2)))
    success_rate := if n = 0 then 0 else (succ : ℚ) / (n : ℚ) * 100 }

/-- The expansion phase of `find_maximum_scaling` (lines 57-64): double
`high` while the probe succeeds, tracking the last safe factor in `low`,
for at most `trials` iterations.  `test` is the OOM probe `test_scale`. -/
def expandPhase (test : ℕ → Bool) : ℕ → ℕ → ℕ → ℕ × ℕ
  | 0, low, high => (low, high)
  | n + 1, low, high =>
    if test high then expandPhase test n high (high * 2) else (low, high)

/-- The refinement phase of `find_maximum_scaling` (lines 66-73): binary
search between the last safe factor and the first failing one. -/
def bisectPhase (test : ℕ → Bool) (low high : ℕ) : ℕ :=
  if low + 1 < high then
    let mid := (low + high) / 2
    if test mid then bisectPhase test mid high else bisectPhase test low mid
  else low
termination_by high - low
decreasing_by
  · omega
  · omega

/-- `find_maximum_scaling` (inference_efficiency.py lines 31-73): exponential
growth from factor 1 followed by binary-search refinement; the OOM probe is
the parameter `test`. -/
def find_maximum_scaling (test : ℕ → Bool) (max_trials : ℕ := 10) : ℕ :=
  let p := expandPhase test max_trials 1 1
  bisectPhase test p.1 p.2

/-! Embedding of ase_models.py, run_ase_dptest:

Embedding of the frame loop and failure-tolerance logic of
`ASEModel.run_ase_dptest` (lines 245-291).  Whether the energy prediction
for a frame succeeds is external input; the downstream float statistics
(least-squares bias removal, MAE/RMSE) are abstracted as an arbitrary
function `stats` of the frames that were accumulated. -/

/-- One test frame as seen by `run_ase_dptest`: whether its energy
prediction succeeded (finite and exception-free), plus an opaque payload
standing for the frame's labels and predictions. -/
structure DPFrame where
  energy_ok : Bool
  payload : ℚ
deriving DecidableEq

/-- The frame loop of `run_ase_dptest`: a failing frame is recorded and
skipped, and as soon as the number of recorded failures exceeds
`failed_tolereance = 10` the loop raises `RuntimeError`; a succeeding
frame is accumulated. -/
def dptestLoop (tolerance : ℕ) :
    List DPFrame → ℕ → List DPFrame → Except String (List DPFrame)
  | [], _, acc => .ok acc.reverse
  | f :: rest, failed, acc =>
    if f.energy_ok then dptestLoop tolerance rest failed (f :: acc)
    else if failed + 1 > tolerance then .error "Too many failures; aborting."
    else dptestLoop tolerance rest (failed + 1) acc

/-- `run_ase_dptest` (ase_models.py lines 245-291), restricted to the
energy-failure tolerance behaviour: iterate the frames with tolerance 10
and apply the statistics computation to the accumulated frames. -/
def run_ase_dptest {α : Type} (stats : List DPFrame → α)
    (frames : List DPFrame) : Except String α :=
  (dptestLoop 10 frames 0 []).map stats

/-! Theorems settling the claims. -/

/-- A `none` weight makes the per-metric filter return `(none, none)`. -/
theorem filterMetric_weight_none (log : ℚ → ℚ) (nz : Bool) (std : ℚ)
    (raw : Option ℚ) : filterMetric log nz none std raw = (none, none) := rfl

/-- With a present weight the per-metric filter leaves the caller's raw
field unchanged. -/
theorem filterMetric_weight_some_snd (log : ℚ → ℚ) (nz : Bool) (w std : ℚ)
    (raw : Option ℚ) : (filterMetric log nz (some w) std raw).2 = raw := by
  cases raw <;> rfl

/-- C4: for every task result and normalization config in which some metric
has `metric_weight = none`, the filter returns `none` for that metric and
the caller's input field for that metric is mutated to `none`, regardless
of the raw value supplied; the fields of metrics with present weights are
left unchanged in the input. -/
theorem C4_weight_none_excludes_and_mutates (log : ℚ → ℚ) (tr : TaskResult)
    (cfg : NormalizationConfig) (nz : Bool) :
    ((cfg.energy_weight = none →
        (filter_generalizability_force_field_results log tr cfg nz).1.energy_rmse = none ∧
        (filter_generalizability_force_field_results log tr cfg nz).2.energy_rmse = none) ∧
      (cfg.force_weight = none →
        (filter_generalizability_force_field_results log tr cfg nz).1.force_rmse = none ∧
        (filter_generalizability_force_field_results log tr cfg nz).2.force_rmse = none) ∧
      (cfg.virial_weight = none →
        (filter_generalizability_force_field_results log tr cfg nz).1.virial_rmse = none ∧
        (filter_generalizability_force_field_results log tr cfg nz).2.virial_rmse = none)) ∧
    ((cfg.energy_weight ≠ none →
        (filter_generalizability_force_field_results log tr cfg nz).2.energy_rmse = tr.energy_rmse) ∧
      (cfg.force_weight ≠ none →
        (filter_generalizability_force_field_results log tr cfg nz).2.force_rmse = tr.force_rmse) ∧
      (cfg.virial_weight ≠ none →
        (filter_generalizability_force_field_results log tr cfg nz).2.virial_rmse = tr.virial_rmse)) := by
  obtain ⟨ew, fw, vw, es, fs, vs⟩ := cfg
  refine ⟨⟨fun h => ?_, fun h => ?_, fun h => ?_⟩,
    fun h => ?_, fun h => ?_, fun h => ?_⟩
  · cases h; exact ⟨rfl, rfl⟩
  · cases h; exact ⟨rfl, rfl⟩
  · cases h; exact ⟨rfl, rfl⟩
  · cases ew with
    | none => exact absurd rfl h
    | some w => exact filterMetric_weight_some_snd log nz w es tr.energy_rmse
  · cases fw with
    | none => exact absurd rfl h
    | some w => exact filterMetric_weight_some_snd log nz w fs tr.force_rmse
  · cases vw with
    | none => exact absurd rfl h
    | some w => exact filterMetric_weight_some_snd log nz w vs tr.virial_rmse

/-- Witness for C4 at the input of the source test
`test_filter_generalizability_force_field_results`: the excluded virial
metric is returned as `none` and the caller's field is cleared. -/
theorem C4_weight_none_excludes_and_mutates_witness :
    (filter_generalizability_force_field_results (fun q => q)
        ⟨some (2/10), some (3/10), some (4/10)⟩
        ⟨some 1, some (1/2), none, 1, 1, 1⟩ false).1.virial_rmse = none ∧
    (filter_generalizability_force_field_results (fun q => q)
        ⟨some (2/10), some (3/10), some (4/10)⟩
        ⟨some 1, some (1/2), none, 1, 1, 1⟩ false).2.virial_rmse = none :=
  (C4_weight_none_excludes_and_mutates (fun q => q)
    ⟨some (2/10), some (3/10), some (4/10)⟩
    ⟨some 1, some (1/2), none, 1, 1, 1⟩ false).1.2.2 rfl

/-- C7 counterexample: with `normalize = true` the filter does not
contribute `weight * (raw / std)`.  At the input of the source test
`test_filter_generalizability_force_field_results_normalize`
(`weight = 1`, `raw = 0.2`, `std = 0.1`) the linear rule would give `2`,
but the test requires the contribution `0`; the model (whose `log`
parameter is instantiated here with a stub whose only evaluated point is
`log 1 = 0`, exact for the real logarithm) returns `0`. -/
theorem C7_normalize_not_linear_counterexample :
    (filter_generalizability_force_field_results (fun _ => 0)
        ⟨some (2/10), some (4/10), none⟩
        ⟨some 1, some (1/2), none, 1/10, 2/10, 1⟩ true).1.energy_rmse = some 0 ∧
    ¬((filter_generalizability_force_field_results (fun _ => 0)
        ⟨some (2/10), some (4/10), none⟩
        ⟨some 1, some (1/2), none, 1/10, 2/10, 1⟩ true).1.energy_rmse =
      some (1 * ((2/10) / (1/10)))) := by
  constructor
  · simp [filter_generalizability_force_field_results, filterMetric]
  · simp only [filter_generalizability_force_field_results, filterMetric]
    norm_num

/-- C7 (amended): for a metric whose weight `w` and raw value `v` are both
present, the filter contributes `w * log v` when `normalize = false`, and
`w * log (min (v / std) 1)` — the log of the std-normalised error clipped
at the baseline, not the linear `w * (v / std)` — when `normalize = true`. -/
theorem C7_contribution_modes (log : ℚ → ℚ) (tr : TaskResult)
    (cfg : NormalizationConfig) :
    (∀ w v, cfg.energy_weight = some w → tr.energy_rmse = some v →
      (filter_generalizability_force_field_results log tr cfg false).1.energy_rmse
          = some (w * log v) ∧
      (filter_generalizability_force_field_results log tr cfg true).1.energy_rmse
          = some (w * log (min (v / cfg.energy_std) 1))) ∧
    (∀ w v, cfg.force_weight = some w → tr.force_rmse = some v →
      (filter_generalizability_force_field_results log tr cfg false).1.force_rmse
          = some (w * log v) ∧
      (filter_generalizability_force_field_results log tr cfg true).1.force_rmse
          = some (w * log (min (v / cfg.force_std) 1))) ∧
    (∀ w v, cfg.virial_weight = some w → tr.virial_rmse = some v →
      (filter_generalizability_force_field_results log tr cfg false).1.virial_rmse
          = some (w * log v) ∧
      (filter_generalizability_force_field_results log tr cfg true).1.virial_rmse
          = some (w * log (min (v / cfg.virial_std) 1))) := by
  refine ⟨fun w v hw hv => ?_, fun w v hw hv => ?_, fun w v hw hv => ?_⟩ <;>
    simp [filter_generalizability_force_field_results, filterMetric, hw, hv]

/-- Witness for C7 (amended) at the input of the source test
`test_filter_generalizability_force_field_results_normalize`, with the
logarithm instantiated by the identity. -/
theorem C7_contribution_modes_witness :
    (filter_generalizability_force_field_results (fun q => q)
        ⟨some (2/10), some (4/10), none⟩
        ⟨some 1, some (1/2), none, 1/10, 2/10, 1⟩ false).1.energy_rmse
        = some (1 * (2/10)) ∧
    (filter_generalizability_force_field_results (fun q => q)
        ⟨some (2/10), some (4/10), none⟩
        ⟨some 1, some (1/2), none, 1/10, 2/10, 1⟩ true).1.energy_rmse
        = some (1 * min ((2/10) / (1/10)) 1) :=
  (C7_contribution_modes (fun q => q)
    ⟨some (2/10), some (4/10), none⟩
    ⟨some 1, some (1/2), none, 1/10, 2/10, 1⟩).1 1 (2/10) rfl rfl

/-- C5: when every per-system `average_time` is present the aggregate is
the unweighted mean of the average times, the root-mean-square combination
of the per-system standard deviations and the mean success rate; when any
system's `average_time` is `none` the whole aggregate collapses to
`{average_time: none, std_time: none, success_rate: 0}`. -/
theorem C5_efficiency_aggregate (sqrt : ℚ → ℚ)
    (records : List (String × EfficiencyRecord)) :
    ((∀ p ∈ records, (p.2).average_time ≠ none) →
      aggregated_inference_efficiency_results sqrt records =
        [("average_time",
            some (qMean (records.map fun p => (p.2).average_time.getD 0))),
         ("standard_deviation",
            some (sqrt (qMean (records.map fun p => ((p.2).std_time.getD 0) ^ 2)))),
         ("success_rate",
            some (qMean (records.map fun p => (p.2).success_rate)))]) ∧
    ((∃ p ∈ records, (p.2).average_time = none) →
      aggregated_inference_efficiency_results sqrt records =
        [("average_time", none), ("std_time", none), ("success_rate", some 0)]) := by
  constructor
  · intro h
    have hany : ((records.map Prod.snd).any fun r => r.average_time.isNone) = false := by
      rw [List.any_eq_false]
      intro r hr
      obtain ⟨p, hp, rfl⟩ := List.mem_map.mp hr
      simpa [Option.isNone_iff_eq_none] using h p hp
    simp [aggregated_inference_efficiency_results, hany, List.map_map,
      Function.comp_def]
  · intro h
    have hany : ((records.map Prod.snd).any fun r => r.average_time.isNone) = true := by
      obtain ⟨p, hp, hnone⟩ := h
      simp only [List.any_eq_true, List.mem_map]
      exact ⟨p.2, ⟨p, hp, rfl⟩, by simp [hnone]⟩
    simp [aggregated_inference_efficiency_results, hany]

/-- Witness for C5 at the data of the source tests
`test_aggregated_inference_efficiency_results_complete` and
`test_aggregated_inference_efficiency_results_incomplete`, with `sqrt`
instantiated by the identity. -/
theorem C5_efficiency_aggregate_witness :
    aggregated_inference_efficiency_results (fun q => q)
        [("sys1", ⟨some (1/10), some (1/100), 1⟩),
         ("sys2", ⟨some (2/10), some (4/100), 9/10⟩)] =
      [("average_time", some (qMean [1/10, 2/10])),
       ("standard_deviation", some (qMean [(1/100)^2, (4/100)^2])),
       ("success_rate", some (qMean [1, 9/10]))] ∧
    aggregated_inference_efficiency_results (fun q => q)
        [("sys1", ⟨none, some (1/100), 1⟩),
         ("sys2", ⟨some (2/10), some (4/100), 9/10⟩)] =
      [("average_time", none), ("std_time", none), ("success_rate", some 0)] :=
  ⟨(C5_efficiency_aggregate (fun q => q)
      [("sys1", ⟨some (1/10), some (1/100), 1⟩),
       ("sys2", ⟨some (2/10), some (4/100), 9/10⟩)]).1 (by simp),
   (C5_efficiency_aggregate (fun q => q)
      [("sys1", ⟨none, some (1/100), 1⟩),
       ("sys2", ⟨some (2/10), some (4/100), 9/10⟩)]).2
     ⟨("sys1", ⟨none, some (1/100), 1⟩), List.mem_cons_self _ _, rfl⟩⟩

/-- C6: every completed stability record contributes
`max 0 (log10 (Φ / Φ_tol))` with `Φ_tol = 5e-4`, every failed record
contributes the fixed penalty `5`, and on a non-empty all-failed record
set the aggregate equals exactly `5` (the aggregate is total — it is a
rational, never an optional value). -/
theorem C6_stability_penalty (log10 : ℚ → ℚ)
    (metrics : List (String × StabilityRecord)) (h : metrics ≠ []) :
    (∀ phi, instability log10 (.ok phi) = max 0 (log10 (phi / phiTol))) ∧
    instability log10 .failed = 5 ∧
    phiTol = 5 / 10000 ∧
    ((∀ p ∈ metrics, p.2 = .failed) →
      aggregated_nve_md_results log10 metrics = 5) := by
  refine ⟨fun _ => rfl, rfl, rfl, fun hall => ?_⟩
  unfold aggregated_nve_md_results qMean
  have hsum : (metrics.map fun p => instability log10 p.2).sum =
      ((metrics.map fun p => instability log10 p.2).length : ℕ) • (5 : ℚ) := by
    refine List.sum_eq_card_nsmul _ _ ?_
    intro x hx
    obtain ⟨p, hp, rfl⟩ := List.mem_map.mp hx
    rw [hall p hp]
    rfl
  rw [hsum, List.length_map, nsmul_eq_mul]
  have hn : ((metrics.length : ℚ)) ≠ 0 :=
    Nat.cast_ne_zero.mpr (Nat.pos_iff_ne_zero.mp (List.length_pos.mpr h))
  field_simp

/-- Witness for C6 on a two-structure all-failed record set with `log10`
instantiated by the identity. -/
theorem C6_stability_penalty_witness :
    aggregated_nve_md_results (fun q => q) [("a", .failed), ("b", .failed)] = 5 :=
  (C6_stability_penalty (fun q => q) [("a", .failed), ("b", .failed)]
    (by decide)).2.2.2 (by decide)

/-- C3: when the number of direct-task records differs from the number of
tasks in the static weights configuration, the "Weighted" entry is `none`
and a diagnostic naming the missing tasks is recorded; when the counts
match, "Weighted" is the exponential average of the per-task normalized
scores and no diagnostic is recorded. -/
theorem C3_weighted_requires_full_task_set (log exp : ℚ → ℚ)
    (weightsOf : String → NormalizationConfig) (cfgTasks : List String)
    (records : List (String × TaskResult)) :
    (records.length ≠ cfgTasks.length →
      (processDirectTasks log exp weightsOf cfgTasks records).weighted = none ∧
      (processDirectTasks log exp weightsOf cfgTasks records).missing_warning =
        some (cfgTasks.filter fun t =>
          ¬(t ∈ records.map Prod.fst ∨ t = "Weighted"))) ∧
    (records.length = cfgTasks.length →
      (processDirectTasks log exp weightsOf cfgTasks records).weighted =
        some (exp_average exp (records.map fun p =>
          (filter_generalizability_force_field_results log p.2 (weightsOf p.1)).1)) ∧
      (processDirectTasks log exp weightsOf cfgTasks records).missing_warning =
        none) := by
  constructor
  · intro h
    simp [processDirectTasks, h]
  · intro h
    simp [processDirectTasks, h, List.map_map, Function.comp_def]

/-- Witness for C3: one record against a two-task configuration marks
"Weighted" as `none` and records the missing task name; two records
against it produce the exponential average. -/
theorem C3_weighted_requires_full_task_set_witness :
    (processDirectTasks (fun q => q) (fun q => q)
        (fun _ => ⟨some 1, some 1, some 1, 1, 1, 1⟩) ["t1", "t2"]
        [("t1", ⟨some 1, some 2, some 3⟩)]).weighted = none ∧
    (processDirectTasks (fun q => q) (fun q => q)
        (fun _ => ⟨some 1, some 1, some 1, 1, 1, 1⟩) ["t1", "t2"]
        [("t1", ⟨some 1, some 2, some 3⟩)]).missing_warning =
      some (["t1", "t2"].filter fun t =>
        ¬(t ∈ [("t1", (⟨some 1, some 2, some 3⟩ : TaskResult))].map Prod.fst ∨
          t = "Weighted")) :=
  (C3_weighted_requires_full_task_set (fun q => q) (fun q => q)
    (fun _ => ⟨some 1, some 1, some 1, 1, 1, 1⟩) ["t1", "t2"]
    [("t1", ⟨some 1, some 2, some 3⟩)]).1 (by decide)

/-- The concrete input exhibiting the C1 divergence: model A has a direct
record, model B shows direct tasks but has none in the table. -/
def envC1 : AggEnv where
  log := fun q => q
  exp := fun q => q
  log10 := fun q => q
  direct_task_weights := fun _ => ⟨some 1, some 1, some 1, 1, 1, 1⟩
  direct_task_names := ["t1"]
  property_reverse := fun s => s
  directTable := fun n => if n = "A" then [("t1", ⟨some 1, some 1, some 1⟩)] else []
  propertyTable := fun _ => []
  calculatorTable := fun _ => []

/-- C1 (divergence): `process_results_for_one_model` isolates model B's
missing records by returning `None` rather than raising — but `main` then
executes `results[model.model_name]["model"] = ...` on that `None`, which
raises `TypeError` and aborts the whole run, producing no results entry
for model A either.  The spec's propagation policy ("one model's
missing/malformed data must not abort aggregation for other models")
requires the run to complete with `None`s for model B only. -/
theorem C1_one_failing_model_aborts_main :
    process_results_for_one_model envC1 ⟨"A", true, false, false⟩ ≠ none ∧
    process_results_for_one_model envC1 ⟨"B", true, false, false⟩ = none ∧
    mainAgg envC1 [⟨"A", true, false, false⟩, ⟨"B", true, false, false⟩] =
      .error "TypeError: NoneType object does not support item assignment" := by
  refine ⟨?_, rfl, ?_⟩
  · intro hc
    exact Option.noConfusion hc
  · rfl

/-- A row with a missing FF-Error never compares `rowLe` into a row with a
present FF-Error. -/
theorem not_rowLe_of_ff_none {a b : FinalRankingRow}
    (ha : a.ff_error = none) (hb : b.ff_error ≠ none) : ¬ rowLe a b := by
  obtain ⟨x, hx⟩ := Option.ne_none_iff_exists'.mp hb
  intro hle
  unfold rowLe sortKey at hle
  rw [Prod.Lex.le_iff] at hle
  rcases hle with hlt | ⟨heq, _⟩
  · rw [ha, hx] at hlt
    exact not_top_lt (hlt : (⊤ : WithTop ℚ) < (x : WithTop ℚ))
  · rw [ha, hx] at heq
    exact WithTop.top_ne_coe (heq : (⊤ : WithTop ℚ) = (x : WithTop ℚ))

/-- Among rows agreeing on FF-Error, a missing PC-Error never compares
`rowLe` into a present one. -/
theorem not_rowLe_of_pc_none {a b : FinalRankingRow}
    (hff : a.ff_error = b.ff_error) (ha : a.pc_error = none)
    (hb : b.pc_error ≠ none) : ¬ rowLe a b := by
  obtain ⟨x, hx⟩ := Option.ne_none_iff_exists'.mp hb
  intro hle
  unfold rowLe sortKey at hle
  rw [Prod.Lex.le_iff] at hle
  rcases hle with hlt | ⟨_, hle₂⟩
  · rw [hff] at hlt
    exact lt_irrefl _ hlt
  · rw [Prod.Lex.le_iff] at hle₂
    rcases hle₂ with hlt | ⟨heq, _⟩
    · rw [ha, hx] at hlt
      exact not_top_lt (hlt : (⊤ : WithTop ℚ) < (x : WithTop ℚ))
    · rw [ha, hx] at heq
      exact WithTop.top_ne_coe (heq : (⊤ : WithTop ℚ) = (x : WithTop ℚ))

/-- Among rows agreeing on FF-Error and PC-Error, a missing Instability
never compares `rowLe` into a present one. -/
theorem not_rowLe_of_instability_none {a b : FinalRankingRow}
    (hff : a.ff_error = b.ff_error) (hpc : a.pc_error = b.pc_error)
    (ha : a.instability_score = none) (hb : b.instability_score ≠ none) :
    ¬ rowLe a b := by
  obtain ⟨x, hx⟩ := Option.ne_none_iff_exists'.mp hb
  intro hle
  unfold rowLe sortKey at hle
  rw [Prod.Lex.le_iff] at hle
  rcases hle with hlt | ⟨_, hle₂⟩
  · rw [hff] at hlt
    exact lt_irrefl _ hlt
  · rw [Prod.Lex.le_iff] at hle₂
    rcases hle₂ with hlt | ⟨_, hle₃⟩
    · rw [hpc] at hlt
      exact lt_irrefl _ hlt
    · rw [Prod.Lex.le_iff] at hle₃
      rcases hle₃ with hlt | ⟨heq, _⟩
      · rw [ha, hx] at hlt
        exact not_top_lt (hlt : (⊤ : WithTop ℚ) < (x : WithTop ℚ))
      · rw [ha, hx] at heq
        exact WithTop.top_ne_coe (heq : (⊤ : WithTop ℚ) = (x : WithTop ℚ))

/-- Among rows agreeing on the three error keys, a missing Efficiency never
compares `rowLe` into a present one. -/
theorem not_rowLe_of_efficiency_none {a b : FinalRankingRow}
    (hff : a.ff_error = b.ff_error) (hpc : a.pc_error = b.pc_error)
    (hin : a.instability_score = b.instability_score)
    (ha : a.efficiency = none) (hb : b.efficiency ≠ none) : ¬ rowLe a b := by
  obtain ⟨x, hx⟩ := Option.ne_none_iff_exists'.mp hb
  intro hle
  unfold rowLe sortKey at hle
  rw [Prod.Lex.le_iff] at hle
  rcases hle with hlt | ⟨_, hle₂⟩
  · rw [hff] at hlt
    exact lt_irrefl _ hlt
  · rw [Prod.Lex.le_iff] at hle₂
    rcases hle₂ with hlt | ⟨_, hle₃⟩
    · rw [hpc] at hlt
      exact lt_irrefl _ hlt
    · rw [Prod.Lex.le_iff] at hle₃
      rcases hle₃ with hlt | ⟨_, hle₄⟩
      · rw [hin] at hlt
        exact lt_irrefl _ hlt
      · rw [ha, hx] at hle₄
        have : (descKey none : WithTop ℚ) ≤ descKey (some x) := hle₄
        simp only [descKey] at this
        exact absurd this (by simp)

/-- In a `rowLe`-sorted list, an element that does not compare `rowLe`
into another element sits strictly after it. -/
theorem placed_after_of_not_rowLe {l : List FinalRankingRow}
    (hs : l.Sorted rowLe) {i j : ℕ} (hi : i < l.length) (hj : j < l.length)
    (hnot : ¬ rowLe (l.get ⟨i, hi⟩) (l.get ⟨j, hj⟩)) : j < i := by
  by_contra hc
  push_neg at hc
  rcases Nat.eq_or_lt_of_le hc with heq | hlt
  · exact hnot (by cases heq; exact le_refl _)
  · exact hnot (hs.rel_get_of_lt (Fin.mk_lt_mk.mpr hlt))

/-- C2: `rank` is a permutation of its input that is sorted by the
lexicographic four-key comparator (FF-Error asc, PC-Error asc,
Instability asc, Efficiency desc; each key placing `none` last), and any
row whose value for a key is `none` is placed strictly after every row
that has a value in that key and agrees on the higher-priority keys,
regardless of the lower-priority key values. -/
theorem C2_rank_lexicographic_none_last (rows : List FinalRankingRow) :
    (rank rows).Perm rows ∧
    (rank rows).Sorted rowLe ∧
    (∀ i j (hi : i < (rank rows).length) (hj : j < (rank rows).length),
      ((rank rows).get ⟨i, hi⟩).ff_error = none →
      ((rank rows).get ⟨j, hj⟩).ff_error ≠ none → j < i) ∧
    (∀ i j (hi : i < (rank rows).length) (hj : j < (rank rows).length),
      ((rank rows).get ⟨i, hi⟩).ff_error = ((rank rows).get ⟨j, hj⟩).ff_error →
      ((rank rows).get ⟨i, hi⟩).pc_error = none →
      ((rank rows).get ⟨j, hj⟩).pc_error ≠ none → j < i) ∧
    (∀ i j (hi : i < (rank rows).length) (hj : j < (rank rows).length),
      ((rank rows).get ⟨i, hi⟩).ff_error = ((rank rows).get ⟨j, hj⟩).ff_error →
      ((rank rows).get ⟨i, hi⟩).pc_error = ((rank rows).get ⟨j, hj⟩).pc_error →
      ((rank rows).get ⟨i, hi⟩).instability_score = none →
      ((rank rows).get ⟨j, hj⟩).instability_score ≠ none → j < i) ∧
    (∀ i j (hi : i < (rank rows).length) (hj : j < (rank rows).length),
      ((rank rows).get ⟨i, hi⟩).ff_error = ((rank rows).get ⟨j, hj⟩).ff_error →
      ((rank rows).get ⟨i, hi⟩).pc_error = ((rank rows).get ⟨j, hj⟩).pc_error →
      ((rank rows).get ⟨i, hi⟩).instability_score =
        ((rank rows).get ⟨j, hj⟩).instability_score →
      ((rank rows).get ⟨i, hi⟩).efficiency = none →
      ((rank rows).get ⟨j, hj⟩).efficiency ≠ none → j < i) := by
  have hsorted : (rank rows).Sorted rowLe := List.sorted_insertionSort rowLe rows
  refine ⟨List.perm_insertionSort rowLe rows, hsorted,
    fun i j hi hj h₁ h₂ => ?_,
    fun i j hi hj h₀ h₁ h₂ => ?_,
    fun i j hi hj h₀ h₀' h₁ h₂ => ?_,
    fun i j hi hj h₀ h₀' h₀'' h₁ h₂ => ?_⟩
  · exact placed_after_of_not_rowLe hsorted hi hj (not_rowLe_of_ff_none h₁ h₂)
  · exact placed_after_of_not_rowLe hsorted hi hj (not_rowLe_of_pc_none h₀ h₁ h₂)
  · exact placed_after_of_not_rowLe hsorted hi hj
      (not_rowLe_of_instability_none h₀ h₀' h₁ h₂)
  · exact placed_after_of_not_rowLe hsorted hi hj
      (not_rowLe_of_efficiency_none h₀ h₀' h₀'' h₁ h₂)

/-- Witness for C2: on two rows where model A misses its FF-Error while
model B has one (but is worse on everything else), A is placed strictly
after B. -/
theorem C2_rank_lexicographic_none_last_witness : (0 : ℕ) < 1 :=
  (C2_rank_lexicographic_none_last
      [⟨"A", none, some 0, some 0, some 5⟩,
       ⟨"B", some 1, some 9, none, none⟩]).2.2.1 1 0
    (by decide) (by decide) (by decide) (by decide)

/-- C8: for a non-empty trajectory, `run_one_inference` reports a success
rate of `100 * successes / n` over all frames, warmup included; its
average time is the arithmetic mean of the per-atom microsecond timings of
the successful frames at or beyond the warmup cutoff `int(n * w)`, and is
`none` exactly when no such frame exists. -/
theorem C8_run_one_inference_metrics (sqrt : ℚ → ℚ) (frames : List Frame)
    (warmup : ℚ) (h : frames ≠ []) :
    (run_one_inference sqrt frames warmup).success_rate =
      100 * (frames.countP (fun f => f.ok) : ℚ) / (frames.length : ℚ) ∧
    ((run_one_inference sqrt frames warmup).average_time = none ↔
      ∀ p ∈ frames.enum,
        ¬((p.2).ok ∧ intTrunc ((frames.length : ℚ) * warmup) ≤ (p.1 : ℤ))) ∧
    (efficiencySamples frames (intTrunc ((frames.length : ℚ) * warmup)) ≠ [] →
      (run_one_inference sqrt frames warmup).average_time =
        some (qMean (efficiencySamples frames
          (intTrunc ((frames.length : ℚ) * warmup))))) := by
  have hn : frames.length ≠ 0 := fun hc => h (List.length_eq_zero.mp hc)
  refine ⟨?_, ?_, ?_⟩
  · simp only [run_one_inference, hn, if_false]
    ring
  · simp only [run_one_inference]
    by_cases he :
        (efficiencySamples frames (intTrunc ((frames.length : ℚ) * warmup))).length = 0
    · simp only [he, if_true, true_iff]
      have hnil := List.length_eq_zero.mp he
      rw [efficiencySamples, List.filterMap_eq_nil_iff] at hnil
      intro p hp hcond
      have := hnil p hp
      rw [if_pos hcond] at this
      exact Option.noConfusion this
    · simp only [he, if_false]
      constructor
      · intro hc
        exact absurd hc (Option.some_ne_none _)
      · intro hall
        exfalso
        apply he
        rw [List.length_eq_zero, efficiencySamples, List.filterMap_eq_nil_iff]
        intro p hp
        rw [if_neg (hall p hp)]
  · intro hne
    have he :
        (efficiencySamples frames (intTrunc ((frames.length : ℚ) * warmup))).length ≠ 0 :=
      fun hc => hne (List.length_eq_zero.mp hc)
    simp only [run_one_inference, he, if_false]

/-- Witness for C8 on the two-frame trajectory of the source test
`test_run_one_inference_success` (two atoms per frame, both frames
succeed in 0.1 s, no warmup). -/
theorem C8_run_one_inference_metrics_witness :
    (run_one_inference (fun q => q) [⟨2, true, 1/10⟩, ⟨2, true, 1/10⟩] 0).success_rate =
      100 * (([⟨2, true, 1/10⟩, ⟨2, true, 1/10⟩] : List Frame).countP
        (fun f => f.ok) : ℚ) / (([⟨2, true, 1/10⟩, ⟨2, true, 1/10⟩] : List Frame).length : ℚ) :=
  (C8_run_one_inference_metrics (fun q => q) [⟨2, true, 1/10⟩, ⟨2, true, 1/10⟩] 0
    (by decide)).1

/-- The frame loop of `run_ase_dptest`, fully characterised: with at most
`tol - failed` further tolerable failures the loop returns the
accumulator followed by the successful frames, and one failure beyond
that raises. -/
theorem dptestLoop_spec (tol : ℕ) (frames : List DPFrame) :
    ∀ (failed : ℕ) (acc : List DPFrame),
      (frames.countP (fun f => !f.energy_ok) + failed ≤ tol →
        dptestLoop tol frames failed acc =
          .ok (acc.reverse ++ frames.filter fun f => f.energy_ok)) ∧
      (failed ≤ tol → frames.countP (fun f => !f.energy_ok) + failed > tol →
        dptestLoop tol frames failed acc = .error "Too many failures; aborting.") := by
  induction frames with
  | nil =>
    intro failed acc
    refine ⟨fun _ => ?_, fun h₁ h₂ => ?_⟩
    · simp [dptestLoop]
    · simp only [List.countP_nil] at h₂
      omega
  | cons f rest ih =>
    intro failed acc
    by_cases hok : f.energy_ok
    · have hcount : (f :: rest).countP (fun f => !f.energy_ok) =
          rest.countP (fun f => !f.energy_ok) := by
        rw [List.countP_cons]
        simp [hok]
      refine ⟨fun h => ?_, fun h₁ h₂ => ?_⟩
      · rw [hcount] at h
        have := (ih failed (f :: acc)).1 h
        simp only [dptestLoop, hok, if_true, this, List.reverse_cons]
        simp [List.filter_cons, hok]
      · rw [hcount] at h₂
        have := (ih failed (f :: acc)).2 h₁ h₂
        simp only [dptestLoop, hok, if_true, this]
    · have hcount : (f :: rest).countP (fun f => !f.energy_ok) =
          rest.countP (fun f => !f.energy_ok) + 1 := by
        rw [List.countP_cons]
        simp [hok]
      refine ⟨fun h => ?_, fun h₁ h₂ => ?_⟩
      · rw [hcount] at h
        have hlt : ¬(failed + 1 > tol) := by omega
        have := (ih (failed + 1) acc).1 (by omega)
        simp only [dptestLoop, hok, if_false, hlt, this]
        simp [List.filter_cons, hok]
      · rw [hcount] at h₂
        by_cases hraise : failed + 1 > tol
        · simp [dptestLoop, hok, hraise]
        · have := (ih (failed + 1) acc).2 (by omega) (by omega)
          simp [dptestLoop, hok, hraise, this]

/-- C9: `run_ase_dptest` tolerates at most 10 structures failing energy
prediction — up to 10 failures are skipped and excluded from the
statistics, which are computed from exactly the successful frames —
and with an 11th failure it raises `RuntimeError` and yields no result
at all, regardless of any frames that would follow. -/
theorem C9_dptest_failure_tolerance {α : Type} (stats : List DPFrame → α)
    (frames : List DPFrame) :
    (frames.countP (fun f => !f.energy_ok) ≤ 10 →
      run_ase_dptest stats frames =
        .ok (stats (frames.filter fun f => f.energy_ok))) ∧
    (frames.countP (fun f => !f.energy_ok) > 10 →
      run_ase_dptest stats frames = .error "Too many failures; aborting.") ∧
    (∀ rest : List DPFrame, frames.countP (fun f => !f.energy_ok) > 10 →
      run_ase_dptest stats (frames ++ rest) = run_ase_dptest stats frames) := by
  refine ⟨fun h => ?_, fun h => ?_, fun rest h => ?_⟩
  · rw [run_ase_dptest, (dptestLoop_spec 10 frames 0 []).1 (by omega)]
    rfl
  · rw [run_ase_dptest, (dptestLoop_spec 10 frames 0 []).2 (by omega) (by omega)]
    rfl
  · have happ : (frames ++ rest).countP (fun f => !f.energy_ok) > 10 := by
      rw [List.countP_append]
      omega
    rw [run_ase_dptest, (dptestLoop_spec 10 (frames ++ rest) 0 []).2 (by omega) (by omega),
      run_ase_dptest, (dptestLoop_spec 10 frames 0 []).2 (by omega) (by omega)]

/-- Ten failing frames followed by one successful frame. -/
def framesTolerated : List DPFrame := List.replicate 10 ⟨false, 0⟩ ++ [⟨true, 1⟩]

/-- Eleven failing frames. -/
def framesAborting : List DPFrame := List.replicate 11 ⟨false, 0⟩

/-- Witness for C9: ten failures still produce statistics over the single
successful frame; an eleventh failure aborts. -/
theorem C9_dptest_failure_tolerance_witness :
    run_ase_dptest (fun l : List DPFrame => l.length) framesTolerated =
      .ok ((framesTolerated.filter fun f => f.energy_ok).length) ∧
    run_ase_dptest (fun l : List DPFrame => l.length) framesAborting =
      .error "Too many failures; aborting." :=
  ⟨(C9_dptest_failure_tolerance (fun l : List DPFrame => l.length)
      framesTolerated).1 (by decide),
   (C9_dptest_failure_tolerance (fun l : List DPFrame => l.length)
      framesAborting).2.1 (by decide)⟩

/-- Fuel-indexed monotonicity of the refinement phase. -/
theorem bisectPhase_ge_aux (test : ℕ → Bool) :
    ∀ (d low high : ℕ), high - low ≤ d → low ≤ bisectPhase test low high := by
  intro d
  induction d with
  | zero =>
    intro low high hd
    rw [bisectPhase, if_neg (by omega)]
  | succ d ih =>
    intro low high hd
    rw [bisectPhase]
    by_cases h : low + 1 < high
    · rw [if_pos h]
      show low ≤ if test ((low + high) / 2) then
          bisectPhase test ((low + high) / 2) high
        else bisectPhase test low ((low + high) / 2)
      by_cases htest : test ((low + high) / 2)
      · rw [if_pos htest]
        exact le_trans (by omega) (ih ((low + high) / 2) high (by omega))
      · rw [if_neg htest]
        exact ih low ((low + high) / 2) (by omega)
    · rw [if_neg h]

/-- The refinement phase never moves below its lower bound. -/
theorem bisectPhase_ge (test : ℕ → Bool) (low high : ℕ) :
    low ≤ bisectPhase test low high :=
  bisectPhase_ge_aux test (high - low) low high le_rfl

/-- The expansion phase keeps both bounds at least 1. -/
theorem expandPhase_ge_one (test : ℕ → Bool) :
    ∀ (n low high : ℕ), 1 ≤ low → 1 ≤ high →
      1 ≤ (expandPhase test n low high).1 := by
  intro n
  induction n with
  | zero => intro low high hl _; exact hl
  | succ n ih =>
    intro low high hl hh
    by_cases htest : test high
    · rw [expandPhase, if_pos htest]
      exact ih high (high * 2) hh (by omega)
    · rw [expandPhase, if_neg htest]
      exact hl

/-- C10: `find_maximum_scaling` always returns a factor of at least 1, and
when the probe fails already at factor 1 it still returns 1 rather than
signalling failure — so a caller cannot distinguish a safe base size from
one that already exhausts memory. -/
theorem C10_find_maximum_scaling_floor (test : ℕ → Bool) (max_trials : ℕ) :
    1 ≤ find_maximum_scaling test max_trials ∧
    (test 1 = false → find_maximum_scaling test max_trials = 1) := by
  constructor
  · exact le_trans
      (expandPhase_ge_one test max_trials 1 1 le_rfl le_rfl)
      (bisectPhase_ge test _ _)
  · intro h1
    have hexp : expandPhase test max_trials 1 1 = (1, 1) := by
      cases max_trials with
      | zero => rfl
      | succ n => rw [expandPhase, if_neg (by simp [h1])]
    rw [find_maximum_scaling, hexp]
    rw [bisectPhase, if_neg (by omega)]

/-- Witness for C10 with a probe that fails everywhere: the factor is 1. -/
theorem C10_find_maximum_scaling_floor_witness :
    find_maximum_scaling (fun _ => false) 10 = 1 :=
  (C10_find_maximum_scaling_floor (fun _ => false) 10).2 rfl

end LamBench
